import Mathlib

/-!
Verification of `src/remove_bg.py` (brain-defender).

The program is a single function `remove_white_background(input_path,
output_path)`: it decodes an image, normalizes it to RGBA, replaces every
pixel whose red, green and blue channels are each strictly greater than 220
by the canonical transparent value (255, 255, 255, 0), keeps every other
pixel unchanged, and saves the result as a PNG.

The development has three layers:
- a pure pixel layer (`classifyPixel`, `buildNewData`) embedding the
  classification loop over the decoded RGBA pixel buffer;
- a raw-tuple layer (`rawClassify`, `rawBuildNewData`) embedding the
  channel accesses `item[0]`, `item[1]`, `item[2]` on pixels of unknown
  arity, to settle the in-bounds safety of the loop;
- an I/O layer (`FS`, `imageOpen`, `imageSave`, `remove_white_background`)
  in which the PIL and filesystem semantics the function relies on are
  modelled from the spec.
-/

namespace BrainDefender

/-- A pixel: four 8-bit channels (red, green, blue, alpha), held as
naturals. -/
structure Pixel where
  r : Nat
  g : Nat
  b : Nat
  a : Nat
deriving DecidableEq, Repr

/-- The canonical transparent value (255, 255, 255, 0) written for
background pixels. -/
def transparentWhite : Pixel := ⟨255, 255, 255, 0⟩

/-- The body of the classification loop of `remove_white_background`:
a pixel with R > 220 and G > 220 and B > 220 becomes (255, 255, 255, 0),
any other pixel is kept as it is. -/
def classifyPixel (item : Pixel) : Pixel :=
  if item.r > 220 && item.g > 220 && item.b > 220 then transparentWhite
  else item

/-- The classification loop of `remove_white_background`: starting from an
empty `newData`, each pixel of `datas` appends either the canonical
transparent value or the original pixel. -/
def buildNewData (datas : List Pixel) : List Pixel :=
  datas.foldl
    (fun newData item =>
      if item.r > 220 && item.g > 220 && item.b > 220 then
        newData ++ [transparentWhite]
      else
        newData ++ [item])
    []

/-!
Raw-tuple layer: before anything is known about the arity of a pixel, the
loop body reads `item[0]`, `item[1]`, `item[2]`; an access out of bounds
would fail. `rawClassify` performs exactly those three accesses.
-/

/-- One iteration of the loop over a raw pixel tuple: reads channels 0, 1
and 2, and either appends (255, 255, 255, 0) or the original tuple; `none`
when one of the three accesses is out of bounds. -/
def rawClassify (item : List Nat) : Option (List Nat) :=
  match item.get? 0, item.get? 1, item.get? 2 with
  | some r, some g, some b =>
      some (if r > 220 && g > 220 && b > 220 then [255, 255, 255, 0]
            else item)
  | _, _, _ => none

/-- The classification loop over raw pixel tuples: fails if any iteration
performs an out-of-bounds channel access. -/
def rawBuildNewData : List (List Nat) → Option (List (List Nat))
  | [] => some []
  | item :: rest =>
    match rawClassify item, rawBuildNewData rest with
    | some x, some xs => some (x :: xs)
    | _, _ => none

/-!
I/O layer: the PIL image object and the filesystem the function touches,
modelled from the spec.
-/

/-- An in-memory image: width, height, a mode string and a flat pixel
buffer, as PIL holds it after decoding. -/
structure Image where
  width : Nat
  height : Nat
  mode : String
  data : List Pixel
deriving DecidableEq, Repr

/-- Modelled from the spec: the filesystem the program sees — decodable
image files by path, and the set of paths that may be created or
overwritten. -/
structure FS where
  files : List (String × Image)
  writable : List String
deriving DecidableEq

/-- Modelled from the spec: `Image.open(path)` decodes the file at a path;
it fails when the path is missing, unreadable, or not a decodable image
(all collapsed to `none` here). -/
def imageOpen (fs : FS) (path : String) : Option Image :=
  (fs.files.find? (fun e => e.1 == path)).map (fun e => e.2)

/-- Modelled from the spec: `img.convert("RGBA")` normalizes every pixel to
four channels; decoded buffers in this model already hold 4-channel pixels,
so conversion fixes the mode and keeps the buffer. -/
def imageConvert (img : Image) (mode : String) : Image :=
  { img with mode := mode }

/-- `img.getdata()`: the flat pixel buffer. -/
def Image.getdata (img : Image) : List Pixel :=
  img.data

/-- `img.putdata(newData)`: replaces the pixel buffer, keeping the image
width and height. -/
def Image.putdata (img : Image) (newData : List Pixel) : Image :=
  { img with data := newData }

/-- Modelled from the spec: `img.save(output_path, "PNG")` writes the
encoded image at the output path, overwriting an existing file; it fails
when the path cannot be created or overwritten. The error is not caught. -/
def imageSave (fs : FS) (img : Image) (path : String) : Except String FS :=
  if fs.writable.contains path then
    Except.ok ⟨(path, img) :: fs.files.filter (fun e => !(e.1 == path)),
               fs.writable⟩
  else
    Except.error "write error"

/-- `remove_white_background(input_path, output_path)`: open the input,
convert to RGBA, run the classification loop over the pixel buffer, put the
new buffer back and save as PNG. Any decode or write failure propagates to
the caller with no retry, recovery or cleanup. -/
def remove_white_background (fs : FS) (input_path output_path : String) :
    Except String FS :=
  match imageOpen fs input_path with
  | none => Except.error "decode error"
  | some img0 =>
    let img := imageConvert img0 "RGBA"
    let datas := img.getdata
    let newData := buildNewData datas
    let img2 := img.putdata newData
    imageSave fs img2 output_path

/-!
Helper lemmas about the loop.
-/

theorem buildNewData_foldl (datas : List Pixel) (acc : List Pixel) :
    datas.foldl
      (fun newData item =>
        if item.r > 220 && item.g > 220 && item.b > 220 then
          newData ++ [transparentWhite]
        else
          newData ++ [item])
      acc = acc ++ datas.map classifyPixel := by
  induction datas generalizing acc with
  | nil => simp
  | cons x xs ih =>
    simp only [List.foldl_cons, List.map_cons]
    rw [ih]
    by_cases hc : (x.r > 220 && x.g > 220 && x.b > 220) = true
    · simp [classifyPixel, hc]
    · simp [classifyPixel, hc]

/-- The loop is exactly a map of `classifyPixel` over the buffer. -/
theorem buildNewData_eq_map (datas : List Pixel) :
    buildNewData datas = datas.map classifyPixel := by
  unfold buildNewData
  rw [buildNewData_foldl]
  simp

theorem buildNewData_length (datas : List Pixel) :
    (buildNewData datas).length = datas.length := by
  rw [buildNewData_eq_map]
  simp

theorem classifyPixel_idem (item : Pixel) :
    classifyPixel (classifyPixel item) = classifyPixel item := by
  by_cases hc : (item.r > 220 && item.g > 220 && item.b > 220) = true
  · simp [classifyPixel, hc]
  · simp [classifyPixel, hc]

theorem rawClassify_isSome_of_length (item : List Nat)
    (h : item.length = 4) : ∃ x, rawClassify item = some x := by
  have h0 : item.get? 0 = some (item.get ⟨0, by omega⟩) :=
    List.get?_eq_get (by omega)
  have h1 : item.get? 1 = some (item.get ⟨1, by omega⟩) :=
    List.get?_eq_get (by omega)
  have h2 : item.get? 2 = some (item.get ⟨2, by omega⟩) :=
    List.get?_eq_get (by omega)
  unfold rawClassify
  rw [h0, h1, h2]
  exact ⟨_, rfl⟩

theorem imageOpen_save_self (fs : FS) (img : Image) (path : String)
    (fs' : FS) (h : imageSave fs img path = Except.ok fs') :
    imageOpen fs' path = some img := by
  unfold imageSave at h
  by_cases hw : fs.writable.contains path = true
  · rw [if_pos hw] at h
    cases h
    simp [imageOpen, List.find?]
  · rw [if_neg hw] at h
    cases h

/-!
Claim theorems.
-/

/-- C1: every pixel of the decoded RGBA buffer whose red, green and blue
channels are each strictly greater than 220 is written as the canonical
transparent value (255, 255, 255, 0) in the output buffer. -/
theorem white_pixels_become_transparent (datas : List Pixel) (i : Nat)
    (item : Pixel) (hi : datas.get? i = some item)
    (hr : item.r > 220) (hg : item.g > 220) (hb : item.b > 220) :
    (buildNewData datas).get? i = some transparentWhite := by
  rw [buildNewData_eq_map, List.get?_map, hi]
  simp [classifyPixel, hr, hg, hb]

/-- C1 witness: the boundary pixel (221, 221, 221, 255) becomes
(255, 255, 255, 0). -/
theorem white_pixels_become_transparent_witness :
    (buildNewData [⟨221, 221, 221, 255⟩]).get? 0 = some transparentWhite :=
  white_pixels_become_transparent [⟨221, 221, 221, 255⟩] 0
    ⟨221, 221, 221, 255⟩ rfl (by decide) (by decide) (by decide)

/-- C2: every pixel of the decoded RGBA buffer with at least one of
R ≤ 220, G ≤ 220, B ≤ 220 is left unchanged in the output buffer, all four
channels included. -/
theorem non_white_pixel_unchanged (datas : List Pixel) (i : Nat)
    (item : Pixel) (hi : datas.get? i = some item)
    (h : item.r ≤ 220 ∨ item.g ≤ 220 ∨ item.b ≤ 220) :
    (buildNewData datas).get? i = some item := by
  rw [buildNewData_eq_map, List.get?_map, hi]
  have hc : ¬((item.r > 220 && item.g > 220 && item.b > 220) = true) := by
    simp only [Bool.and_eq_true, decide_eq_true_eq]
    omega
  simp [classifyPixel, hc]

/-- C2 witness: the boundary pixel (220, 220, 220, 255) stays
(220, 220, 220, 255). -/
theorem non_white_pixel_unchanged_witness :
    (buildNewData [⟨220, 220, 220, 255⟩]).get? 0 =
      some ⟨220, 220, 220, 255⟩ :=
  non_white_pixel_unchanged [⟨220, 220, 220, 255⟩] 0
    ⟨220, 220, 220, 255⟩ rfl (Or.inl (by decide))

/-- C3: every pixel of the transformed buffer is either identical to the
corresponding input pixel or equals the canonical transparent value
(255, 255, 255, 0); there is no third kind of output pixel. -/
theorem pixel_invariant (datas : List Pixel) (i : Nat) :
    (buildNewData datas).get? i = datas.get? i ∨
      (buildNewData datas).get? i = some transparentWhite := by
  rw [buildNewData_eq_map, List.get?_map]
  cases hd : datas.get? i with
  | none => exact Or.inl rfl
  | some item =>
    by_cases hc : (item.r > 220 && item.g > 220 && item.b > 220) = true
    · exact Or.inr (by simp [classifyPixel, hc])
    · exact Or.inl (by simp [classifyPixel, hc])

/-- C4: the classify-and-replace transform is idempotent: applying it
twice yields the same buffer as applying it once. -/
theorem transform_idempotent (datas : List Pixel) :
    buildNewData (buildNewData datas) = buildNewData datas := by
  rw [buildNewData_eq_map, buildNewData_eq_map, List.map_map]
  exact List.map_congr_left (fun item _ => classifyPixel_idem item)

/-- C5: the transformation is a pure per-pixel map: the loop output is
exactly `classifyPixel` mapped over the input, so each output pixel depends
only on the corresponding input pixel, not on its position or neighbours. -/
theorem transform_is_pure_map (datas : List Pixel) :
    buildNewData datas = datas.map classifyPixel :=
  buildNewData_eq_map datas

/-- C7: the 2×1 pixel sequence [(255,255,255,255), (0,0,0,255)] is
transformed into exactly [(255,255,255,0), (0,0,0,255)]. -/
theorem end_to_end_2x1 :
    buildNewData [⟨255, 255, 255, 255⟩, ⟨0, 0, 0, 255⟩] =
      [⟨255, 255, 255, 0⟩, ⟨0, 0, 0, 255⟩] := by decide

/-- C9: alpha has no influence on classification: two pixels with the same
R, G, B are both replaced or both kept, and when replaced both yield the
same output (255, 255, 255, 0), discarding the original alpha. -/
theorem alpha_has_no_influence (r g b a a' : Nat) :
    ((r > 220 ∧ g > 220 ∧ b > 220) →
      classifyPixel ⟨r, g, b, a⟩ = transparentWhite ∧
        classifyPixel ⟨r, g, b, a'⟩ = transparentWhite) ∧
    (¬(r > 220 ∧ g > 220 ∧ b > 220) →
      classifyPixel ⟨r, g, b, a⟩ = ⟨r, g, b, a⟩ ∧
        classifyPixel ⟨r, g, b, a'⟩ = ⟨r, g, b, a'⟩) := by
  constructor
  · rintro ⟨hr, hg, hb⟩
    constructor <;> simp [classifyPixel, hr, hg, hb]
  · intro h
    have hc : ¬((decide (r > 220) && decide (g > 220) && decide (b > 220))
        = true) := by
      simp only [Bool.and_eq_true, decide_eq_true_eq]
      omega
    constructor <;> simp [classifyPixel, hc]

/-- C9 witness: pixels (230, 230, 230, 10) and (230, 230, 230, 200) are
both replaced by the same value (255, 255, 255, 0). -/
theorem alpha_has_no_influence_witness :
    classifyPixel ⟨230, 230, 230, 10⟩ = transparentWhite ∧
      classifyPixel ⟨230, 230, 230, 200⟩ = transparentWhite :=
  (alpha_has_no_influence 230 230 230 10 200).1 (by decide)

/-- C10: when every pixel of the buffer is a 4-tuple — which the RGBA
normalization establishes — the channel accesses `item[0]`, `item[1]`,
`item[2]` of the loop are in bounds for every pixel, so the classification
pass cannot fail. -/
theorem classification_pass_safe (datas : List (List Nat))
    (h : ∀ item ∈ datas, item.length = 4) :
    ∃ out, rawBuildNewData datas = some out := by
  induction datas with
  | nil => exact ⟨[], rfl⟩
  | cons item rest ih =>
    obtain ⟨x, hx⟩ := rawClassify_isSome_of_length item
      (h item (List.mem_cons_self item rest))
    obtain ⟨xs, hxs⟩ := ih (fun q hq => h q (List.mem_cons_of_mem item hq))
    exact ⟨x :: xs, by rw [rawBuildNewData, hx, hxs]⟩

/-- C10 witness: the pass succeeds on the concrete 4-tuple buffer
[[255,255,255,255], [0,0,0,255]]. -/
theorem classification_pass_safe_witness :
    ∃ out, rawBuildNewData [[255, 255, 255, 255], [0, 0, 0, 255]] =
      some out :=
  classification_pass_safe [[255, 255, 255, 255], [0, 0, 0, 255]]
    (by intro item hi; fin_cases hi <;> rfl)

/-- C6: on success the output image has the input image's width and height,
and the transformed pixel sequence has the same length as the input's. -/
theorem output_dimensions_eq_input (fs fs' : FS)
    (input_path output_path : String)
    (h : remove_white_background fs input_path output_path =
      Except.ok fs') :
    ∃ img img', imageOpen fs input_path = some img ∧
      imageOpen fs' output_path = some img' ∧
      img'.width = img.width ∧ img'.height = img.height ∧
      img'.data.length = img.data.length := by
  unfold remove_white_background at h
  cases ho : imageOpen fs input_path with
  | none => rw [ho] at h; cases h
  | some img0 =>
    rw [ho] at h
    simp only at h
    refine ⟨img0, _, rfl, imageOpen_save_self fs _ output_path fs' h,
      rfl, rfl, ?_⟩
    simpa [imageConvert, Image.putdata, Image.getdata] using
      buildNewData_length img0.data

/-- C6 witness: a concrete run on a one-file filesystem with a 2×1 image
preserves width 2, height 1 and buffer length 2. -/
theorem output_dimensions_eq_input_witness :
    ∃ img img',
      imageOpen ⟨[("in.png", ⟨2, 1, "RGBA",
          [⟨255, 255, 255, 255⟩, ⟨0, 0, 0, 255⟩]⟩)], ["out.png"]⟩
        "in.png" = some img ∧
      imageOpen (FS.mk [("out.png", ⟨2, 1, "RGBA",
          [⟨255, 255, 255, 0⟩, ⟨0, 0, 0, 255⟩]⟩),
          ("in.png", ⟨2, 1, "RGBA",
          [⟨255, 255, 255, 255⟩, ⟨0, 0, 0, 255⟩]⟩)] ["out.png"])
        "out.png" = some img' ∧
      img'.width = img.width ∧ img'.height = img.height ∧
      img'.data.length = img.data.length :=
  output_dimensions_eq_input
    ⟨[("in.png", ⟨2, 1, "RGBA",
        [⟨255, 255, 255, 255⟩, ⟨0, 0, 0, 255⟩]⟩)], ["out.png"]⟩
    (FS.mk [("out.png", ⟨2, 1, "RGBA",
        [⟨255, 255, 255, 0⟩, ⟨0, 0, 0, 255⟩]⟩),
        ("in.png", ⟨2, 1, "RGBA",
        [⟨255, 255, 255, 255⟩, ⟨0, 0, 0, 255⟩]⟩)] ["out.png"])
    "in.png" "out.png" (by rfl)

/-- C8: a decode failure or a write failure propagates unhandled: when the
input path does not decode the result is exactly the decode error and no
filesystem (in particular no written output) is ever produced; when the
output path is not writable the write error propagates. -/
theorem errors_propagate (fs : FS) (input_path output_path : String) :
    (imageOpen fs input_path = none →
      remove_white_background fs input_path output_path =
        Except.error "decode error" ∧
      ∀ fs', remove_white_background fs input_path output_path ≠
        Except.ok fs') ∧
    (∀ img, imageOpen fs input_path = some img →
      fs.writable.contains output_path = false →
      remove_white_background fs input_path output_path =
        Except.error "write error") := by
  constructor
  · intro ho
    have hres : remove_white_background fs input_path output_path =
        Except.error "decode error" := by
      unfold remove_white_background
      rw [ho]
    exact ⟨hres, fun fs' hcontra => by rw [hres] at hcontra; cases hcontra⟩
  · intro img ho hw
    unfold remove_white_background
    rw [ho]
    simp only [imageSave, hw]
    rfl

/-- C8 witness: on an empty filesystem the call fails with the decode
error; with the input present but the output path not writable it fails
with the write error. -/
theorem errors_propagate_witness :
    remove_white_background ⟨[], []⟩ "in.png" "out.png" =
      Except.error "decode error" ∧
    remove_white_background
      ⟨[("in.png", ⟨1, 1, "RGB", [⟨0, 0, 0, 255⟩]⟩)], []⟩
      "in.png" "out.png" = Except.error "write error" :=
  ⟨((errors_propagate ⟨[], []⟩ "in.png" "out.png").1 (by decide)).1,
   (errors_propagate ⟨[("in.png", ⟨1, 1, "RGB", [⟨0, 0, 0, 255⟩]⟩)], []⟩
      "in.png" "out.png").2 ⟨1, 1, "RGB", [⟨0, 0, 0, 255⟩]⟩
      (by decide) (by decide)⟩

end BrainDefender
